import Mathlib

/-!
# Verification of the client cache consistency engine

Shallow embedding of the data-shape strategies and cache managers of the
repository (files `src/utils/cacheManager.ts` / `src/utils/entityCacheManager.ts`,
re-exported through `src/utils/optimisticCacheManager.ts` and the hooks).

Entities are values of an abstract type `α`; the identity projection
(`item[idField]` in the source) is an explicit function `idf : α → ι` into a
type `ι` with decidable equality, matching the JavaScript `===` comparison on
identity values (strings / numbers).  `pagination.total` is an `Int` and the
source's `Math.max(0, total - 1)` is `max 0 (total - 1)`.
-/

/-- Insertion position, `'start' | 'end'` in the source
(`Position.START | Position.END` in `entityCacheManager.ts`). -/
inductive Position where
  | start : Position
  | end_ : Position
deriving DecidableEq, Repr

/-- The `pagination` object of `PaginatedData` in `cacheManager.ts`:
`{ page, limit, total, totalPages }`.  The object spreads
(`...existingData.pagination`) preserve every field other than `total`. -/
structure Pagination where
  page : Int
  limit : Int
  total : Int
  totalPages : Int
deriving DecidableEq, Repr

/-- `PaginatedData<T> = { data: T[], pagination: {...} }`. -/
structure PaginatedData (α : Type) where
  data : List α
  pagination : Pagination
deriving DecidableEq, Repr

/-- `SimpleListData<T> = { data: T[], ...extra fields }`; the extra fields are
modelled as one value of an abstract type `ε`, preserved by the object spread
`{ ...existingData, data: ... }`. -/
structure SimpleListData (α : Type) (ε : Type) where
  data : List α
  extra : ε
deriving DecidableEq, Repr

namespace PaginatedStrategy

variable {α ι : Type} [DecidableEq ι]

/-- `PaginatedStrategy.add`: prepend or append, `total` incremented by 1. -/
def add (existingData : PaginatedData α) (item : α) (position : Position) :
    PaginatedData α :=
  let newData :=
    match position with
    | Position.start => item :: existingData.data
    | Position.end_ => existingData.data ++ [item]
  { data := newData
    pagination := { existingData.pagination with
                    total := existingData.pagination.total + 1 } }

/-- `PaginatedStrategy.update`: map replacing every element whose identity
equals the item's identity; `pagination` passed through unchanged. -/
def update (idf : α → ι) (existingData : PaginatedData α) (item : α) :
    PaginatedData α :=
  { data := existingData.data.map fun existing =>
      if idf existing = idf item then item else existing
    pagination := existingData.pagination }

/-- `PaginatedStrategy.remove`: filter out every element whose identity equals
`id`; `total := Math.max(0, total - 1)`. -/
def remove (idf : α → ι) (existingData : PaginatedData α) (id : ι) :
    PaginatedData α :=
  { data := existingData.data.filter fun item => ¬ idf item = id
    pagination := { existingData.pagination with
                    total := max 0 (existingData.pagination.total - 1) } }

/-- `PaginatedStrategy.replace`: `data := items`, `total := items.length`. -/
def replace (existingData : PaginatedData α) (items : List α) :
    PaginatedData α :=
  { data := items
    pagination := { existingData.pagination with
                    total := (items.length : Int) } }

/-- `PaginatedStrategy.upsert`: `findIndex >= 0` on the identity, then
`update`, else `add` at the default `start` position. -/
def upsert (idf : α → ι) (existingData : PaginatedData α) (item : α) :
    PaginatedData α :=
  match existingData.data.findIdx? (fun existing =>
      decide (idf existing = idf item)) with
  | some _ => update idf existingData item
  | none => add existingData item Position.start

end PaginatedStrategy

namespace SimpleListStrategy

variable {α ι ε : Type} [DecidableEq ι]

/-- `SimpleListStrategy.add`: `{ ...existingData, data: [...] }`. -/
def add (existingData : SimpleListData α ε) (item : α) (position : Position) :
    SimpleListData α ε :=
  let newData :=
    match position with
    | Position.start => item :: existingData.data
    | Position.end_ => existingData.data ++ [item]
  { existingData with data := newData }

/-- `SimpleListStrategy.update`. -/
def update (idf : α → ι) (existingData : SimpleListData α ε) (item : α) :
    SimpleListData α ε :=
  { existingData with
    data := existingData.data.map fun existing =>
      if idf existing = idf item then item else existing }

/-- `SimpleListStrategy.remove`. -/
def remove (idf : α → ι) (existingData : SimpleListData α ε) (id : ι) :
    SimpleListData α ε :=
  { existingData with
    data := existingData.data.filter fun item => ¬ idf item = id }

/-- `SimpleListStrategy.replace`. -/
def replace (existingData : SimpleListData α ε) (items : List α) :
    SimpleListData α ε :=
  { existingData with data := items }

/-- `SimpleListStrategy.upsert`. -/
def upsert (idf : α → ι) (existingData : SimpleListData α ε) (item : α) :
    SimpleListData α ε :=
  match existingData.data.findIdx? (fun existing =>
      decide (idf existing = idf item)) with
  | some _ => update idf existingData item
  | none => add existingData item Position.start

end SimpleListStrategy

namespace ArrayStrategy

variable {α ι : Type} [DecidableEq ι]

/-- `ArrayStrategy.add`. -/
def add (existingData : List α) (item : α) (position : Position) : List α :=
  match position with
  | Position.start => item :: existingData
  | Position.end_ => existingData ++ [item]

/-- `ArrayStrategy.update`. -/
def update (idf : α → ι) (existingData : List α) (item : α) : List α :=
  existingData.map fun existing =>
    if idf existing = idf item then item else existing

/-- `ArrayStrategy.remove`. -/
def remove (idf : α → ι) (existingData : List α) (id : ι) : List α :=
  existingData.filter fun item => ¬ idf item = id

/-- `ArrayStrategy.replace`. -/
def replace (_existingData : List α) (items : List α) : List α := items

/-- `ArrayStrategy.upsert`. -/
def upsert (idf : α → ι) (existingData : List α) (item : α) : List α :=
  match existingData.findIdx? (fun existing =>
      decide (idf existing = idf item)) with
  | some _ => update idf existingData item
  | none => add existingData item Position.start

end ArrayStrategy

/-!
## Cache manager model

`EntityCacheManager` (file `entityCacheManager.ts`) keeps a registry of
entity configurations and strategies and operates on the Apollo cache.  The
Apollo cache is modelled by `Cache`: an association list from the (opaque)
query identity to the denormalized value, plus the normalized-store
`identify` table and the list of evicted cache ids.  `readQuery` throwing or
returning `null` is `readThrows` / a missing store entry; `writeQuery`
throwing is `writeThrows`.  Identity values (`string | number`, compared
with `===` and tested for JavaScript truthiness) are `JsId`.
-/

/-- A JavaScript `string | number` identity value. -/
inductive JsId where
  | str (s : String)
  | num (n : Int)
deriving DecidableEq, Repr

/-- JavaScript truthiness of an identity value: `0` and `''` are falsy. -/
def JsId.truthy : JsId → Bool
  | JsId.str s => decide (¬ s = "")
  | JsId.num n => decide (¬ n = 0)

/-- Truthiness of `config.entityName` (an optional string): present and
non-empty.  Matches both the `config.entityName &&` guard in
`entityCacheManager.ts` and the explicit
`entityName !== undefined && entityName.length > 0` in `cacheManager.ts`. -/
def truthyName : Option String → Bool
  | none => false
  | some s => decide (¬ s = "")

/-- Truthiness of `operation.id` (optional `string | number`). -/
def truthyId : Option JsId → Bool
  | none => false
  | some i => i.truthy

/-- `DataStructure` enum; `invalid` stands for any value outside the enum
(the `default:` case of the `switch`). -/
inductive DataStructure where
  | paginated
  | simpleList
  | array
  | invalid (s : String)
deriving DecidableEq, Repr

/-- The three concrete strategy classes a manager can bind. -/
inductive StrategyKind where
  | paginated
  | simpleList
  | array
deriving DecidableEq, Repr

/-- `EntityOperationType` enum of `entityCacheManager.ts`. -/
inductive EntityOperationType where
  | add
  | update
  | remove
  | replace
  | upsert
deriving DecidableEq, Repr

/-- `EntityConfig` restricted to the fields the claims exercise; `query`
is an opaque identity for the `(query, variables)` pair and the identity
projection (`idField`) is an explicit function parameter of the manager. -/
structure EntityConfig where
  query : String
  dataStructure : DataStructure
  entityName : Option String
deriving DecidableEq, Repr

/-- `EntityOperation<T>`: all payload fields are optional, as in the
source interface. -/
structure EntityOperation (α : Type) where
  type : EntityOperationType
  entityKey : String
  data : Option α
  id : Option JsId
  items : Option (List α)
  position : Option Position
deriving DecidableEq, Repr

/-- A denormalized query-cache value of one of the three shapes. -/
inductive EntityData (α ε : Type) where
  | paginated (d : PaginatedData α)
  | simpleList (d : SimpleListData α ε)
  | arr (l : List α)
deriving DecidableEq, Repr

/-- The Apollo cache: denormalized query store, failure flags for
`readQuery` / `writeQuery` / `modify`, the normalized-store `identify`
table (`(__typename, id) ↦ cacheId`), the cache ids evicted so far, and
the cache ids whose fields were rewritten by `modify`. -/
structure Cache (α ε : Type) where
  store : List (String × EntityData α ε)
  readThrows : Bool
  writeThrows : Bool
  identifyMap : List ((String × JsId) × String)
  evictedIds : List String
  modifyThrows : Bool
  modifyLog : List String
deriving DecidableEq, Repr

/-- The registry of `EntityCacheManager`: the `entities` and `strategies`
maps (`Map.set` is modelled by a shadowing prepend). -/
structure Registry where
  entities : List (String × EntityConfig)
  strategies : List (String × StrategyKind)
deriving DecidableEq, Repr

/-- `readCacheData`: `readQuery` inside `try/catch`; a throw or a `null`
result both yield `null`. -/
def readCacheData {α ε : Type} (config : EntityConfig) (cache : Cache α ε) :
    Option (EntityData α ε) :=
  if cache.readThrows then none
  else cache.store.lookup config.query

/-- `writeCacheData`: `writeQuery` at the same `(query, variables)`. -/
def writeCacheData {α ε : Type} (config : EntityConfig) (cache : Cache α ε)
    (data : EntityData α ε) : Cache α ε :=
  { cache with store := (config.query, data) :: cache.store }

/-- Dispatch `add` to the bound strategy; `none` models the `TypeError`
thrown (and caught) when the cached value's shape does not match the
strategy. -/
def dispatchAdd {α ε : Type} (kind : StrategyKind)
    (existingData : EntityData α ε) (item : α) (position : Option Position) :
    Option (EntityData α ε) :=
  match kind, existingData with
  | StrategyKind.paginated, EntityData.paginated d =>
      some (EntityData.paginated
        (PaginatedStrategy.add d item (position.getD Position.start)))
  | StrategyKind.simpleList, EntityData.simpleList d =>
      some (EntityData.simpleList
        (SimpleListStrategy.add d item (position.getD Position.start)))
  | StrategyKind.array, EntityData.arr l =>
      some (EntityData.arr
        (ArrayStrategy.add l item (position.getD Position.start)))
  | _, _ => none

/-- Dispatch `update` to the bound strategy. -/
def dispatchUpdate {α ε : Type} (idf : α → JsId) (kind : StrategyKind)
    (existingData : EntityData α ε) (item : α) : Option (EntityData α ε) :=
  match kind, existingData with
  | StrategyKind.paginated, EntityData.paginated d =>
      some (EntityData.paginated (PaginatedStrategy.update idf d item))
  | StrategyKind.simpleList, EntityData.simpleList d =>
      some (EntityData.simpleList (SimpleListStrategy.update idf d item))
  | StrategyKind.array, EntityData.arr l =>
      some (EntityData.arr (ArrayStrategy.update idf l item))
  | _, _ => none

/-- Dispatch `remove` to the bound strategy. -/
def dispatchRemove {α ε : Type} (idf : α → JsId) (kind : StrategyKind)
    (existingData : EntityData α ε) (id : JsId) : Option (EntityData α ε) :=
  match kind, existingData with
  | StrategyKind.paginated, EntityData.paginated d =>
      some (EntityData.paginated (PaginatedStrategy.remove idf d id))
  | StrategyKind.simpleList, EntityData.simpleList d =>
      some (EntityData.simpleList (SimpleListStrategy.remove idf d id))
  | StrategyKind.array, EntityData.arr l =>
      some (EntityData.arr (ArrayStrategy.remove idf l id))
  | _, _ => none

/-- Dispatch `replace` to the bound strategy. -/
def dispatchReplace {α ε : Type} (kind : StrategyKind)
    (existingData : EntityData α ε) (items : List α) :
    Option (EntityData α ε) :=
  match kind, existingData with
  | StrategyKind.paginated, EntityData.paginated d =>
      some (EntityData.paginated (PaginatedStrategy.replace d items))
  | StrategyKind.simpleList, EntityData.simpleList d =>
      some (EntityData.simpleList (SimpleListStrategy.replace d items))
  | StrategyKind.array, EntityData.arr l =>
      some (EntityData.arr (ArrayStrategy.replace l items))
  | _, _ => none

/-- Dispatch `upsert` to the bound strategy. -/
def dispatchUpsert {α ε : Type} (idf : α → JsId) (kind : StrategyKind)
    (existingData : EntityData α ε) (item : α) : Option (EntityData α ε) :=
  match kind, existingData with
  | StrategyKind.paginated, EntityData.paginated d =>
      some (EntityData.paginated (PaginatedStrategy.upsert idf d item))
  | StrategyKind.simpleList, EntityData.simpleList d =>
      some (EntityData.simpleList (SimpleListStrategy.upsert idf d item))
  | StrategyKind.array, EntityData.arr l =>
      some (EntityData.arr (ArrayStrategy.upsert idf l item))
  | _, _ => none

/-- The `switch (operation.type)` body of `EntityCacheManager.executeOperation`:
payload presence checks (`!operation.data`, `operation.id === undefined`,
`!operation.items`) followed by the strategy call; `none` is any path that
returns `false` or throws before the write. -/
def applyOperation {α ε : Type} (idf : α → JsId) (kind : StrategyKind)
    (existingData : EntityData α ε) (op : EntityOperation α) :
    Option (EntityData α ε) :=
  match op.type with
  | EntityOperationType.add =>
      match op.data with
      | none => none
      | some item => dispatchAdd kind existingData item op.position
  | EntityOperationType.update =>
      match op.data with
      | none => none
      | some item => dispatchUpdate idf kind existingData item
  | EntityOperationType.remove =>
      match op.id with
      | none => none
      | some id => dispatchRemove idf kind existingData id
  | EntityOperationType.replace =>
      match op.items with
      | none => none
      | some items => dispatchReplace kind existingData items
  | EntityOperationType.upsert =>
      match op.data with
      | none => none
      | some item => dispatchUpsert idf kind existingData item

namespace EntityCacheManager

/-- The post-write eviction step of `EntityCacheManager.executeOperation`:
guarded by `operation.type === REMOVE && config.entityName && operation.id`
(JavaScript truthiness on both), then `identify` and, `if (cacheId)`,
`evict`. -/
def evictOnRemove {α ε : Type} (config : EntityConfig) (op : EntityOperation α)
    (cache : Cache α ε) : Cache α ε :=
  if op.type = EntityOperationType.remove ∧
      truthyName config.entityName = true ∧ truthyId op.id = true then
    match config.entityName, op.id with
    | some tn, some idv =>
        match cache.identifyMap.lookup (tn, idv) with
        | some cacheId =>
            if cacheId = "" then cache
            else { cache with evictedIds := cacheId :: cache.evictedIds }
        | none => cache
    | _, _ => cache
  else cache

/-- `EntityCacheManager.executeOperation`: config lookup, strategy lookup,
cache read, strategy transform, cache write, eviction on remove.  Every
failure path returns `false` with the cache untouched; the `try/catch`
around the body means no error reaches the caller. -/
def executeOperation {α ε : Type} (idf : α → JsId) (reg : Registry)
    (cache : Cache α ε) (op : EntityOperation α) : Bool × Cache α ε :=
  match reg.entities.lookup op.entityKey with
  | none => (false, cache)
  | some config =>
      match reg.strategies.lookup op.entityKey with
      | none => (false, cache)
      | some kind =>
          match readCacheData config cache with
          | none => (false, cache)
          | some existingData =>
              match applyOperation idf kind existingData op with
              | none => (false, cache)
              | some updatedData =>
                  if cache.writeThrows then (false, cache)
                  else
                    (true, evictOnRemove config op
                      (writeCacheData config cache updatedData))

/-- `EntityCacheManager.getCachedData`: `null` for an unregistered key,
otherwise a pass-through `readCacheData`. -/
def getCachedData {α ε : Type} (reg : Registry) (cache : Cache α ε)
    (entityKey : String) : Option (EntityData α ε) :=
  match reg.entities.lookup entityKey with
  | none => none
  | some config => readCacheData config cache

/-- The strategy the `switch (config.dataStructure)` selects; `none` is the
`default:` branch that throws `Unsupported data structure`. -/
def strategyFor : DataStructure → Option StrategyKind
  | DataStructure.paginated => some StrategyKind.paginated
  | DataStructure.simpleList => some StrategyKind.simpleList
  | DataStructure.array => some StrategyKind.array
  | DataStructure.invalid _ => none

/-- `EntityCacheManager.registerEntity`: `entities.set` runs first; the
strategy `switch` then either binds a strategy or throws (second component
`true`) leaving the `strategies` map untouched. -/
def registerEntity (reg : Registry) (entityKey : String)
    (config : EntityConfig) : Registry × Bool :=
  let entities1 := (entityKey, config) :: reg.entities
  match strategyFor config.dataStructure with
  | some kind =>
      ({ entities := entities1,
         strategies := (entityKey, kind) :: reg.strategies }, false)
  | none => ({ entities := entities1, strategies := reg.strategies }, true)

end EntityCacheManager

/-- `CacheOperation<T>` of `cacheManager.ts`: a tagged union with typed
payloads. -/
inductive CacheOperation (α : Type) where
  | add (item : α) (position : Option Position)
  | update (item : α)
  | remove (id : JsId)
  | replace (items : List α)
  | upsert (item : α)
deriving DecidableEq, Repr

namespace OptimisticCacheManager

/-- `OptimisticCacheManager.applyOperation`: dispatch of the typed
operation to the bound strategy. -/
def applyOperation {α ε : Type} (idf : α → JsId) (kind : StrategyKind)
    (existingData : EntityData α ε) (op : CacheOperation α) :
    Option (EntityData α ε) :=
  match op with
  | CacheOperation.add item position =>
      dispatchAdd kind existingData item position
  | CacheOperation.update item => dispatchUpdate idf kind existingData item
  | CacheOperation.remove id => dispatchRemove idf kind existingData id
  | CacheOperation.replace items => dispatchReplace kind existingData items
  | CacheOperation.upsert item => dispatchUpsert idf kind existingData item

/-- The post-write eviction step of
`OptimisticCacheManager.executeOperation`: on `Remove` with a configured
non-empty `entityName` (`entityName !== undefined && entityName.length > 0`),
`identify` then — with an `if (cacheId !== undefined)` check only — `evict`.
No truthiness condition on the removed id itself. -/
def evictOnRemove {α ε : Type} (config : EntityConfig)
    (op : CacheOperation α) (cache : Cache α ε) : Cache α ε :=
  match op with
  | CacheOperation.remove id =>
      if truthyName config.entityName = true then
        match config.entityName with
        | some tn =>
            match cache.identifyMap.lookup (tn, id) with
            | some cacheId =>
                { cache with evictedIds := cacheId :: cache.evictedIds }
            | none => cache
        | none => cache
      else cache
  | _ => cache

/-- `OptimisticCacheManager.executeOperation`: read, transform, write,
then the eviction step on `Remove`. -/
def executeOperation {α ε : Type} (idf : α → JsId) (config : EntityConfig)
    (kind : StrategyKind) (cache : Cache α ε) (op : CacheOperation α) :
    Bool × Cache α ε :=
  match readCacheData config cache with
  | none => (false, cache)
  | some existingData =>
      match applyOperation idf kind existingData op with
      | none => (false, cache)
      | some updatedData =>
          if cache.writeThrows then (false, cache)
          else
            (true, evictOnRemove config op
              (writeCacheData config cache updatedData))

end OptimisticCacheManager

namespace OptimisticCacheManager

/-- `OptimisticCacheManager.updateItemField`: requires a configured
non-empty `entityName`, an `identify` hit (`cacheId === undefined` check),
then `cache.modify` inside the surrounding `try/catch`.  The query cache is
bypassed entirely. -/
def updateItemField {α ε : Type} (config : EntityConfig) (cache : Cache α ε)
    (id : JsId) : Bool × Cache α ε :=
  if truthyName config.entityName = true then
    match config.entityName with
    | some tn =>
        match cache.identifyMap.lookup (tn, id) with
        | some cacheId =>
            if cache.modifyThrows then (false, cache)
            else (true, { cache with modifyLog := cacheId :: cache.modifyLog })
        | none => (false, cache)
    | none => (false, cache)
  else (false, cache)

end OptimisticCacheManager

/-- One logical `add` / `remove` strategy operation on a `Paginated`
cache, for the pagination-total invariant. -/
inductive PagOp (α ι : Type) where
  | add (item : α) (position : Position)
  | remove (id : ι)
deriving DecidableEq, Repr

/-- Apply a sequence of `add` / `remove` strategy operations in order. -/
def applyPagOps {α ι : Type} [DecidableEq ι] (idf : α → ι)
    (S : PaginatedData α) : List (PagOp α ι) → PaginatedData α
  | [] => S
  | PagOp.add item pos :: rest =>
      applyPagOps idf (PaginatedStrategy.add S item pos) rest
  | PagOp.remove id :: rest =>
      applyPagOps idf (PaginatedStrategy.remove idf S id) rest

/-- Number of `add` operations in a sequence, as an integer. -/
def countAdds {α ι : Type} : List (PagOp α ι) → Int
  | [] => 0
  | PagOp.add _ _ :: rest => countAdds rest + 1
  | PagOp.remove _ :: rest => countAdds rest

/-- Number of `remove` operations in a sequence, as an integer. -/
def countRemoves {α ι : Type} : List (PagOp α ι) → Int
  | [] => 0
  | PagOp.add _ _ :: rest => countRemoves rest
  | PagOp.remove _ :: rest => countRemoves rest + 1

/-!
## Helper lemmas

The element-wise replacement `e ↦ if idf e = idf item then item else e`
performed by the `update` transforms, and the `findIndex`-based branch of
the `upsert` transforms.
-/

theorem updMap_map_self {α ι : Type} [DecidableEq ι] (idf : α → ι) (item : α)
    (l : List α) :
    ((l.map fun e => if idf e = idf item then item else e).map
      fun e => if idf e = idf item then item else e) =
    l.map fun e => if idf e = idf item then item else e := by
  rw [List.map_map]
  refine List.map_congr_left ?_
  intro a _
  by_cases h : idf a = idf item <;> simp [h]

theorem updMap_eq_self {α ι : Type} [DecidableEq ι] (idf : α → ι) (item : α)
    (l : List α) (h : ∀ e ∈ l, ¬ idf e = idf item) :
    (l.map fun e => if idf e = idf item then item else e) = l := by
  induction l with
  | nil => rfl
  | cons x xs ih =>
      simp only [List.map_cons]
      rw [if_neg (h x (by simp)), ih fun e he => h e (by simp [he])]

theorem any_updMap {α ι : Type} [DecidableEq ι] (idf : α → ι) (item : α)
    (l : List α) (h : l.any (fun e => decide (idf e = idf item)) = true) :
    (l.map fun e => if idf e = idf item then item else e).any
      (fun e => decide (idf e = idf item)) = true := by
  rw [List.any_eq_true] at h ⊢
  obtain ⟨x, hx, hpx⟩ := h
  refine ⟨item, ?_, by simp⟩
  rw [List.mem_map]
  simp only [decide_eq_true_eq] at hpx
  exact ⟨x, hx, by simp [hpx]⟩

theorem PaginatedStrategy.upsert_eq_ite_paginated {α ι : Type} [DecidableEq ι]
    (idf : α → ι) (S : PaginatedData α) (item : α) :
    PaginatedStrategy.upsert idf S item =
      if S.data.any (fun e => decide (idf e = idf item)) = true
      then PaginatedStrategy.update idf S item
      else PaginatedStrategy.add S item Position.start := by
  unfold PaginatedStrategy.upsert
  cases h : S.data.findIdx? (fun e => decide (idf e = idf item)) with
  | none =>
      rw [List.findIdx?_eq_none_iff] at h
      have hany : S.data.any (fun e => decide (idf e = idf item)) = false := by
        rw [List.any_eq_false]
        intro x hx
        simp [h x hx]
      simp [hany]
  | some i =>
      have h2 : (S.data.findIdx? fun e =>
          decide (idf e = idf item)).isSome = true := by rw [h]; rfl
      rw [List.findIdx?_isSome] at h2
      simp [h2]

theorem SimpleListStrategy.upsert_eq_ite_simpleList {α ι ε : Type} [DecidableEq ι]
    (idf : α → ι) (L : SimpleListData α ε) (item : α) :
    SimpleListStrategy.upsert idf L item =
      if L.data.any (fun e => decide (idf e = idf item)) = true
      then SimpleListStrategy.update idf L item
      else SimpleListStrategy.add L item Position.start := by
  unfold SimpleListStrategy.upsert
  cases h : L.data.findIdx? (fun e => decide (idf e = idf item)) with
  | none =>
      rw [List.findIdx?_eq_none_iff] at h
      have hany : L.data.any (fun e => decide (idf e = idf item)) = false := by
        rw [List.any_eq_false]
        intro x hx
        simp [h x hx]
      simp [hany]
  | some i =>
      have h2 : (L.data.findIdx? fun e =>
          decide (idf e = idf item)).isSome = true := by rw [h]; rfl
      rw [List.findIdx?_isSome] at h2
      simp [h2]

theorem ArrayStrategy.upsert_eq_ite_array {α ι : Type} [DecidableEq ι]
    (idf : α → ι) (A : List α) (item : α) :
    ArrayStrategy.upsert idf A item =
      if A.any (fun e => decide (idf e = idf item)) = true
      then ArrayStrategy.update idf A item
      else ArrayStrategy.add A item Position.start := by
  unfold ArrayStrategy.upsert
  cases h : A.findIdx? (fun e => decide (idf e = idf item)) with
  | none =>
      rw [List.findIdx?_eq_none_iff] at h
      have hany : A.any (fun e => decide (idf e = idf item)) = false := by
        rw [List.any_eq_false]
        intro x hx
        simp [h x hx]
      simp [hany]
  | some i =>
      have h2 : (A.findIdx? fun e =>
          decide (idf e = idf item)).isSome = true := by rw [h]; rfl
      rw [List.findIdx?_isSome] at h2
      simp [h2]

theorem PaginatedStrategy.upsert_idem_paginated {α ι : Type} [DecidableEq ι]
    (idf : α → ι) (S : PaginatedData α) (item : α) :
    PaginatedStrategy.upsert idf (PaginatedStrategy.upsert idf S item) item =
      PaginatedStrategy.upsert idf S item := by
  rw [PaginatedStrategy.upsert_eq_ite_paginated idf S item]
  by_cases h : S.data.any (fun e => decide (idf e = idf item)) = true
  · rw [if_pos h, PaginatedStrategy.upsert_eq_ite_paginated]
    have h2 : (PaginatedStrategy.update idf S item).data.any
        (fun e => decide (idf e = idf item)) = true := by
      unfold PaginatedStrategy.update
      exact any_updMap idf item S.data h
    rw [if_pos h2]
    unfold PaginatedStrategy.update
    simp only [updMap_map_self]
  · rw [if_neg h, PaginatedStrategy.upsert_eq_ite_paginated]
    have h' : ∀ e ∈ S.data, ¬ idf e = idf item := by
      have hfalse := List.any_eq_false.mp (eq_false_of_ne_true h)
      intro e he
      simpa using hfalse e he
    have h2 : (PaginatedStrategy.add S item Position.start).data.any
        (fun e => decide (idf e = idf item)) = true := by
      unfold PaginatedStrategy.add
      simp
    rw [if_pos h2]
    unfold PaginatedStrategy.update PaginatedStrategy.add
    simp [updMap_eq_self idf item S.data h']

theorem SimpleListStrategy.upsert_idem_simpleList {α ι ε : Type} [DecidableEq ι]
    (idf : α → ι) (L : SimpleListData α ε) (item : α) :
    SimpleListStrategy.upsert idf (SimpleListStrategy.upsert idf L item) item =
      SimpleListStrategy.upsert idf L item := by
  rw [SimpleListStrategy.upsert_eq_ite_simpleList idf L item]
  by_cases h : L.data.any (fun e => decide (idf e = idf item)) = true
  · rw [if_pos h, SimpleListStrategy.upsert_eq_ite_simpleList]
    have h2 : (SimpleListStrategy.update idf L item).data.any
        (fun e => decide (idf e = idf item)) = true := by
      unfold SimpleListStrategy.update
      exact any_updMap idf item L.data h
    rw [if_pos h2]
    unfold SimpleListStrategy.update
    simp only [updMap_map_self]
  · rw [if_neg h, SimpleListStrategy.upsert_eq_ite_simpleList]
    have h' : ∀ e ∈ L.data, ¬ idf e = idf item := by
      have hfalse := List.any_eq_false.mp (eq_false_of_ne_true h)
      intro e he
      simpa using hfalse e he
    have h2 : (SimpleListStrategy.add L item Position.start).data.any
        (fun e => decide (idf e = idf item)) = true := by
      unfold SimpleListStrategy.add
      simp
    rw [if_pos h2]
    unfold SimpleListStrategy.update SimpleListStrategy.add
    simp [updMap_eq_self idf item L.data h']

theorem ArrayStrategy.upsert_idem_array {α ι : Type} [DecidableEq ι]
    (idf : α → ι) (A : List α) (item : α) :
    ArrayStrategy.upsert idf (ArrayStrategy.upsert idf A item) item =
      ArrayStrategy.upsert idf A item := by
  rw [ArrayStrategy.upsert_eq_ite_array idf A item]
  by_cases h : A.any (fun e => decide (idf e = idf item)) = true
  · rw [if_pos h, ArrayStrategy.upsert_eq_ite_array]
    have h2 : (ArrayStrategy.update idf A item).any
        (fun e => decide (idf e = idf item)) = true := by
      unfold ArrayStrategy.update
      exact any_updMap idf item A h
    rw [if_pos h2]
    unfold ArrayStrategy.update
    simp only [updMap_map_self]
  · rw [if_neg h, ArrayStrategy.upsert_eq_ite_array]
    have h' : ∀ e ∈ A, ¬ idf e = idf item := by
      have hfalse := List.any_eq_false.mp (eq_false_of_ne_true h)
      intro e he
      simpa using hfalse e he
    have h2 : (ArrayStrategy.add A item Position.start).any
        (fun e => decide (idf e = idf item)) = true := by
      unfold ArrayStrategy.add
      simp
    rw [if_pos h2]
    unfold ArrayStrategy.update ArrayStrategy.add
    simp [updMap_eq_self idf item A h']

theorem length_filter_not {α : Type} (p : α → Bool) (l : List α) :
    (l.filter fun a => !p a).length = l.length - l.countP p := by
  induction l with
  | nil => rfl
  | cons x xs ih =>
      have hle := List.countP_le_length (p := p) (l := xs)
      by_cases hp : p x = true
      · simp [List.filter_cons, hp, List.countP_cons, ih]
      · simp [List.filter_cons, hp, List.countP_cons, ih]
        omega

/-- C4: upsert is idempotent for all three shapes:
`upsert(upsert(S, item), item) == upsert(S, item)` for every cached value,
identity projection and item. -/
theorem claim_C4_upsert_idempotent {α ι ε : Type} [DecidableEq ι]
    (idf : α → ι) (S : PaginatedData α) (L : SimpleListData α ε)
    (A : List α) (item : α) :
    PaginatedStrategy.upsert idf (PaginatedStrategy.upsert idf S item) item =
      PaginatedStrategy.upsert idf S item ∧
    SimpleListStrategy.upsert idf (SimpleListStrategy.upsert idf L item) item =
      SimpleListStrategy.upsert idf L item ∧
    ArrayStrategy.upsert idf (ArrayStrategy.upsert idf A item) item =
      ArrayStrategy.upsert idf A item :=
  ⟨PaginatedStrategy.upsert_idem_paginated idf S item,
   SimpleListStrategy.upsert_idem_simpleList idf L item,
   ArrayStrategy.upsert_idem_array idf A item⟩

/-- C7: for the `Paginated` shape, `replace(S, items)` has `data = items`
and `pagination.total = items.length`, for every prior value and items. -/
theorem claim_C7_replace_resets_total {α : Type} (S : PaginatedData α)
    (items : List α) :
    (PaginatedStrategy.replace S items).data = items ∧
    (PaginatedStrategy.replace S items).pagination.total =
      (items.length : Int) :=
  ⟨rfl, rfl⟩

/-- C9: `PaginatedStrategy.remove` filters out every element whose identity
equals `id` — the result contains zero matches and its length drops by the
full match count — yet `pagination.total` is decremented by exactly 1
(floored at 0), whatever that match count was. -/
theorem claim_C9_remove_filters_all_decrements_one {α ι : Type}
    [DecidableEq ι] (idf : α → ι) (S : PaginatedData α) (id : ι) :
    (PaginatedStrategy.remove idf S id).data.countP
        (fun x => decide (idf x = id)) = 0 ∧
    (PaginatedStrategy.remove idf S id).data.length =
      S.data.length - S.data.countP (fun x => decide (idf x = id)) ∧
    (PaginatedStrategy.remove idf S id).pagination.total =
      max 0 (S.pagination.total - 1) := by
  refine ⟨?_, ?_, rfl⟩
  · rw [List.countP_eq_zero]
    intro a ha
    unfold PaginatedStrategy.remove at ha
    rw [List.mem_filter] at ha
    simpa using ha.2
  · unfold PaginatedStrategy.remove
    simp only [decide_not]
    exact length_filter_not _ S.data

/-- C8: for every shape, `update` replaces exactly the elements whose
identity equals the item's identity (pointwise characterization, length
preserved), leaves `pagination` (resp. the extra fields) untouched, and is
a no-op on the whole value when no element matches. -/
theorem claim_C8_update_exact {α ι ε : Type} [DecidableEq ι] (idf : α → ι)
    (S : PaginatedData α) (L : SimpleListData α ε) (A : List α) (item : α) :
    ((PaginatedStrategy.update idf S item).data.length = S.data.length ∧
     (∀ i : Nat, (PaginatedStrategy.update idf S item).data[i]? =
       (S.data[i]?).map fun e => if idf e = idf item then item else e) ∧
     (PaginatedStrategy.update idf S item).pagination = S.pagination ∧
     ((∀ e ∈ S.data, ¬ idf e = idf item) →
       PaginatedStrategy.update idf S item = S)) ∧
    ((SimpleListStrategy.update idf L item).data.length = L.data.length ∧
     (∀ i : Nat, (SimpleListStrategy.update idf L item).data[i]? =
       (L.data[i]?).map fun e => if idf e = idf item then item else e) ∧
     (SimpleListStrategy.update idf L item).extra = L.extra ∧
     ((∀ e ∈ L.data, ¬ idf e = idf item) →
       SimpleListStrategy.update idf L item = L)) ∧
    ((ArrayStrategy.update idf A item).length = A.length ∧
     (∀ i : Nat, (ArrayStrategy.update idf A item)[i]? =
       (A[i]?).map fun e => if idf e = idf item then item else e) ∧
     ((∀ e ∈ A, ¬ idf e = idf item) → ArrayStrategy.update idf A item = A)) := by
  refine ⟨⟨?_, ?_, rfl, ?_⟩, ⟨?_, ?_, rfl, ?_⟩, ?_, ?_, ?_⟩
  · simp [PaginatedStrategy.update]
  · intro i
    simp [PaginatedStrategy.update, List.getElem?_map]
  · intro hno
    unfold PaginatedStrategy.update
    rw [updMap_eq_self idf item S.data hno]
  · simp [SimpleListStrategy.update]
  · intro i
    simp [SimpleListStrategy.update, List.getElem?_map]
  · intro hno
    unfold SimpleListStrategy.update
    rw [updMap_eq_self idf item L.data hno]
  · simp [ArrayStrategy.update]
  · intro i
    simp [ArrayStrategy.update, List.getElem?_map]
  · intro hno
    unfold ArrayStrategy.update
    exact updMap_eq_self idf item A hno

/-- Witness for C8 at a concrete input: updating `[1]` with an item of
identity `2` (no match) leaves the value unchanged; length is preserved. -/
theorem claim_C8_update_exact_witness :
    (PaginatedStrategy.update (fun n : Int => n)
        ⟨[1], ⟨1, 10, 1, 1⟩⟩ 2).data.length = 1 ∧
    PaginatedStrategy.update (fun n : Int => n) ⟨[1], ⟨1, 10, 1, 1⟩⟩ 2 =
      ⟨[1], ⟨1, 10, 1, 1⟩⟩ := by
  have h := claim_C8_update_exact (fun n : Int => n)
    (⟨[1], ⟨1, 10, 1, 1⟩⟩ : PaginatedData Int)
    (⟨[], ()⟩ : SimpleListData Int Unit) ([] : List Int) 2
  exact ⟨h.1.1, h.1.2.2.2 (by decide)⟩

/-- C6: for every shape, `upsert` equals `update` when the item's identity
occurs in the data (so the data length is unchanged), and equals `add` at
the `Start` position when it is absent. -/
theorem claim_C6_upsert_delegates {α ι ε : Type} [DecidableEq ι]
    (idf : α → ι) (S : PaginatedData α) (L : SimpleListData α ε)
    (A : List α) (item : α) :
    ((∃ e ∈ S.data, idf e = idf item) →
      PaginatedStrategy.upsert idf S item =
        PaginatedStrategy.update idf S item ∧
      (PaginatedStrategy.upsert idf S item).data.length = S.data.length) ∧
    ((∀ e ∈ S.data, ¬ idf e = idf item) →
      PaginatedStrategy.upsert idf S item =
        PaginatedStrategy.add S item Position.start) ∧
    ((∃ e ∈ L.data, idf e = idf item) →
      SimpleListStrategy.upsert idf L item =
        SimpleListStrategy.update idf L item ∧
      (SimpleListStrategy.upsert idf L item).data.length = L.data.length) ∧
    ((∀ e ∈ L.data, ¬ idf e = idf item) →
      SimpleListStrategy.upsert idf L item =
        SimpleListStrategy.add L item Position.start) ∧
    ((∃ e ∈ A, idf e = idf item) →
      ArrayStrategy.upsert idf A item = ArrayStrategy.update idf A item ∧
      (ArrayStrategy.upsert idf A item).length = A.length) ∧
    ((∀ e ∈ A, ¬ idf e = idf item) →
      ArrayStrategy.upsert idf A item = ArrayStrategy.add A item
        Position.start) := by
  refine ⟨?_, ?_, ?_, ?_, ?_, ?_⟩
  · intro hex
    obtain ⟨e, he, hid⟩ := hex
    have hany : S.data.any (fun e => decide (idf e = idf item)) = true :=
      List.any_eq_true.mpr ⟨e, he, by simp [hid]⟩
    have heq := PaginatedStrategy.upsert_eq_ite_paginated idf S item
    rw [if_pos hany] at heq
    exact ⟨heq, by rw [heq]; simp [PaginatedStrategy.update]⟩
  · intro hno
    have hany : ¬ S.data.any (fun e => decide (idf e = idf item)) = true := by
      rw [List.any_eq_true]
      rintro ⟨e, he, hid⟩
      exact hno e he (by simpa using hid)
    have heq := PaginatedStrategy.upsert_eq_ite_paginated idf S item
    rwa [if_neg hany] at heq
  · intro hex
    obtain ⟨e, he, hid⟩ := hex
    have hany : L.data.any (fun e => decide (idf e = idf item)) = true :=
      List.any_eq_true.mpr ⟨e, he, by simp [hid]⟩
    have heq := SimpleListStrategy.upsert_eq_ite_simpleList idf L item
    rw [if_pos hany] at heq
    exact ⟨heq, by rw [heq]; simp [SimpleListStrategy.update]⟩
  · intro hno
    have hany : ¬ L.data.any (fun e => decide (idf e = idf item)) = true := by
      rw [List.any_eq_true]
      rintro ⟨e, he, hid⟩
      exact hno e he (by simpa using hid)
    have heq := SimpleListStrategy.upsert_eq_ite_simpleList idf L item
    rwa [if_neg hany] at heq
  · intro hex
    obtain ⟨e, he, hid⟩ := hex
    have hany : A.any (fun e => decide (idf e = idf item)) = true :=
      List.any_eq_true.mpr ⟨e, he, by simp [hid]⟩
    have heq := ArrayStrategy.upsert_eq_ite_array idf A item
    rw [if_pos hany] at heq
    exact ⟨heq, by rw [heq]; simp [ArrayStrategy.update]⟩
  · intro hno
    have hany : ¬ A.any (fun e => decide (idf e = idf item)) = true := by
      rw [List.any_eq_true]
      rintro ⟨e, he, hid⟩
      exact hno e he (by simpa using hid)
    have heq := ArrayStrategy.upsert_eq_ite_array idf A item
    rwa [if_neg hany] at heq

/-- Witness for C6 at concrete inputs: upserting identity `7` into `[7]`
is the `update`; upserting identity `9` into `[7]` is the `add` at
`Start`. -/
theorem claim_C6_upsert_delegates_witness :
    PaginatedStrategy.upsert (fun n : Int => n) ⟨[7], ⟨1, 10, 1, 1⟩⟩ 7 =
      PaginatedStrategy.update (fun n : Int => n) ⟨[7], ⟨1, 10, 1, 1⟩⟩ 7 ∧
    PaginatedStrategy.upsert (fun n : Int => n) ⟨[7], ⟨1, 10, 1, 1⟩⟩ 9 =
      PaginatedStrategy.add ⟨[7], ⟨1, 10, 1, 1⟩⟩ 9 Position.start := by
  constructor
  · exact ((claim_C6_upsert_delegates (fun n : Int => n)
      (⟨[7], ⟨1, 10, 1, 1⟩⟩ : PaginatedData Int)
      (⟨[], ()⟩ : SimpleListData Int Unit) ([] : List Int) 7).1
      ⟨7, by simp, rfl⟩).1
  · exact (claim_C6_upsert_delegates (fun n : Int => n)
      (⟨[7], ⟨1, 10, 1, 1⟩⟩ : PaginatedData Int)
      (⟨[], ()⟩ : SimpleListData Int Unit) ([] : List Int) 9).2.1 (by decide)

/-- Counterexample for C3 as stated: removing the absent identity `2` from
a `Paginated` cache holding `[1]` with `total = 3` leaves `data` unchanged
but decrements `total` to `2 ≠ 3`. -/
theorem claim_C3_counterexample :
    (PaginatedStrategy.remove (fun n : Int => n)
        ⟨[1], ⟨1, 10, 3, 1⟩⟩ 2).data = [1] ∧
    (PaginatedStrategy.remove (fun n : Int => n)
        ⟨[1], ⟨1, 10, 3, 1⟩⟩ 2).pagination.total = 2 ∧
    ((2 : Int) = 3 → False) := by
  decide

/-- C3 amended: for every shape, `remove` with an absent identity leaves
`data` unchanged (for `SimpleList` and `Array` the whole value is
unchanged); for `Paginated`, `pagination.total` is nevertheless decremented
by 1 floored at 0, so it is unchanged only when it was already ≤ 0. -/
theorem claim_C3_remove_absent {α ι ε : Type} [DecidableEq ι]
    (idf : α → ι) (S : PaginatedData α) (L : SimpleListData α ε)
    (A : List α) (id : ι)
    (hS : ∀ e ∈ S.data, ¬ idf e = id)
    (hL : ∀ e ∈ L.data, ¬ idf e = id)
    (hA : ∀ e ∈ A, ¬ idf e = id) :
    (PaginatedStrategy.remove idf S id).data = S.data ∧
    (PaginatedStrategy.remove idf S id).pagination.total =
      max 0 (S.pagination.total - 1) ∧
    SimpleListStrategy.remove idf L id = L ∧
    ArrayStrategy.remove idf A id = A := by
  refine ⟨?_, rfl, ?_, ?_⟩
  · unfold PaginatedStrategy.remove
    rw [List.filter_eq_self.mpr]
    intro a ha
    simpa using hS a ha
  · unfold SimpleListStrategy.remove
    rw [List.filter_eq_self.mpr]
    intro a ha
    simpa using hL a ha
  · unfold ArrayStrategy.remove
    rw [List.filter_eq_self.mpr]
    intro a ha
    simpa using hA a ha

/-- Witness for the amended C3 at a concrete input: removing absent `9`
from caches holding `[1]`. -/
theorem claim_C3_remove_absent_witness :
    (PaginatedStrategy.remove (fun n : Int => n)
        ⟨[1], ⟨1, 10, 3, 1⟩⟩ 9).data = [1] ∧
    (PaginatedStrategy.remove (fun n : Int => n)
        ⟨[1], ⟨1, 10, 3, 1⟩⟩ 9).pagination.total = max 0 (3 - 1) ∧
    SimpleListStrategy.remove (fun n : Int => n)
        (⟨[1], ()⟩ : SimpleListData Int Unit) 9 = ⟨[1], ()⟩ ∧
    ArrayStrategy.remove (fun n : Int => n) [1] 9 = [1] :=
  claim_C3_remove_absent (fun n : Int => n) ⟨[1], ⟨1, 10, 3, 1⟩⟩
    ⟨[1], ()⟩ [1] 9 (by decide) (by decide) (by decide)

/-- Counterexample for C1 as stated: from `total = 0`, the sequence
`remove 7` then `add 7` yields `total = 1`, while the claim's end-floored
formula `max 0 (T0 + #adds - #removes)` gives `0`. -/
theorem claim_C1_counterexample :
    (applyPagOps (fun n : Int => n) ⟨[], ⟨1, 10, 0, 0⟩⟩
        [PagOp.remove 7, PagOp.add 7 Position.start]).pagination.total = 1 ∧
    max 0 ((0 : Int) +
        countAdds [PagOp.remove (7 : Int), PagOp.add (7 : Int) Position.start] -
        countRemoves
          [PagOp.remove (7 : Int), PagOp.add (7 : Int) Position.start]) = 0 ∧
    ((1 : Int) = 0 → False) := by
  decide

/-- C1 amended: after any sequence of `add` / `remove` operations starting
from `total = T0`, the final total is `T0 + #adds - #removes` provided the
running value `T0 + #adds - #removes` of every prefix stays ≥ 0 (so no
intermediate flooring fires); in general each `remove` floors at 0
immediately, and the final total can exceed `max 0 (T0 + #adds - #removes)`. -/
theorem claim_C1_pagination_total {α ι : Type} [DecidableEq ι]
    (idf : α → ι) (S : PaginatedData α) (ops : List (PagOp α ι))
    (h : ∀ n ≤ ops.length, 0 ≤ S.pagination.total
          + countAdds (ops.take n) - countRemoves (ops.take n)) :
    (applyPagOps idf S ops).pagination.total =
      S.pagination.total + countAdds ops - countRemoves ops := by
  induction ops generalizing S with
  | nil => simp [applyPagOps, countAdds, countRemoves]
  | cons op rest ih =>
      cases op with
      | add item pos =>
          have hrest : ∀ n ≤ rest.length,
              0 ≤ (PaginatedStrategy.add S item pos).pagination.total
                + countAdds (rest.take n) - countRemoves (rest.take n) := by
            intro n hn
            have hh := h (n + 1) (by simpa using Nat.succ_le_succ hn)
            simp only [List.take_succ_cons, countAdds, countRemoves,
              PaginatedStrategy.add] at hh ⊢
            omega
          have hres := ih (PaginatedStrategy.add S item pos) hrest
          rw [applyPagOps, hres]
          simp only [PaginatedStrategy.add, countAdds, countRemoves]
          omega
      | remove id =>
          have h1 := h 1 (by simp)
          have htot : 1 ≤ S.pagination.total := by
            simp only [List.take_succ_cons, List.take_zero, countAdds,
              countRemoves] at h1
            omega
          have hstep : (PaginatedStrategy.remove idf S id).pagination.total =
              S.pagination.total - 1 := by
            simp only [PaginatedStrategy.remove]
            omega
          have hrest : ∀ n ≤ rest.length,
              0 ≤ (PaginatedStrategy.remove idf S id).pagination.total
                + countAdds (rest.take n) - countRemoves (rest.take n) := by
            intro n hn
            have hh := h (n + 1) (by simpa using Nat.succ_le_succ hn)
            rw [hstep]
            simp only [List.take_succ_cons, countAdds, countRemoves] at hh ⊢
            omega
          have hres := ih (PaginatedStrategy.remove idf S id) hrest
          rw [applyPagOps, hres, hstep]
          simp only [countAdds, countRemoves]
          omega

/-- Witness for the amended C1 at a concrete input: from `total = 2`, one
`add` then one `remove` (all prefixes stay ≥ 0) finishes at
`2 + 1 - 1 = 2`. -/
theorem claim_C1_pagination_total_witness :
    (applyPagOps (fun n : Int => n) ⟨[], ⟨1, 10, 2, 1⟩⟩
        [PagOp.add 5 Position.start, PagOp.remove 5]).pagination.total =
      2 + countAdds [PagOp.add (5 : Int) Position.start,
          PagOp.remove (5 : Int)] -
        countRemoves [PagOp.add (5 : Int) Position.start,
          PagOp.remove (5 : Int)] :=
  claim_C1_pagination_total (fun n : Int => n) ⟨[], ⟨1, 10, 2, 1⟩⟩
    [PagOp.add 5 Position.start, PagOp.remove 5] (by decide)

theorem EntityCacheManager.ecm_executeOperation_unchanged_of_false {α ε : Type}
    (idf : α → JsId) (reg : Registry) (cache : Cache α ε)
    (op : EntityOperation α)
    (hf : (EntityCacheManager.executeOperation idf reg cache op).1 = false) :
    (EntityCacheManager.executeOperation idf reg cache op).2 = cache := by
  rcases h1 : reg.entities.lookup op.entityKey with _ | config
  · simp [EntityCacheManager.executeOperation, h1]
  · rcases h2 : reg.strategies.lookup op.entityKey with _ | kind
    · simp [EntityCacheManager.executeOperation, h1, h2]
    · rcases h3 : readCacheData config cache with _ | ex
      · simp [EntityCacheManager.executeOperation, h1, h2, h3]
      · rcases h4 : applyOperation idf kind ex op with _ | upd
        · simp [EntityCacheManager.executeOperation, h1, h2, h3, h4]
        · by_cases h5 : cache.writeThrows = true
          · simp [EntityCacheManager.executeOperation, h1, h2, h3, h4, h5]
          · simp [EntityCacheManager.executeOperation, h1, h2, h3, h4, h5]
              at hf

theorem OptimisticCacheManager.ocm_executeOperation_unchanged_of_false
    {α ε : Type} (idf : α → JsId) (config : EntityConfig)
    (kind : StrategyKind) (cache : Cache α ε) (op : CacheOperation α)
    (hf : (OptimisticCacheManager.executeOperation idf config kind cache
      op).1 = false) :
    (OptimisticCacheManager.executeOperation idf config kind cache op).2 =
      cache := by
  rcases h1 : readCacheData config cache with _ | ex
  · simp [OptimisticCacheManager.executeOperation, h1]
  · rcases h2 : OptimisticCacheManager.applyOperation idf kind ex op
        with _ | upd
    · simp [OptimisticCacheManager.executeOperation, h1, h2]
    · by_cases h3 : cache.writeThrows = true
      · simp [OptimisticCacheManager.executeOperation, h1, h2, h3]
      · simp [OptimisticCacheManager.executeOperation, h1, h2, h3] at hf

theorem OptimisticCacheManager.updateItemField_unchanged_of_false
    {α ε : Type} (config : EntityConfig) (cache : Cache α ε) (id : JsId)
    (hf : (OptimisticCacheManager.updateItemField (α := α) (ε := ε) config
      cache id).1 = false) :
    (OptimisticCacheManager.updateItemField (α := α) (ε := ε) config cache
      id).2 = cache := by
  by_cases h1 : truthyName config.entityName = true
  · rcases h2 : config.entityName with _ | tn
    · simp [truthyName, h2] at h1
    · rw [h2] at h1
      rcases h3 : cache.identifyMap.lookup (tn, id) with _ | cacheId
      · simp [OptimisticCacheManager.updateItemField, h1, h2, h3]
      · by_cases h4 : cache.modifyThrows = true
        · simp [OptimisticCacheManager.updateItemField, h1, h2, h3, h4]
        · simp [OptimisticCacheManager.updateItemField, h1, h2, h3, h4] at hf
  · simp [OptimisticCacheManager.updateItemField, h1]

/-- C2: every public cache-manager operation is total.  All throw sites are
inside `try/catch` (the embedding is a total function returning a `Bool`),
and on each internal error — unregistered entity key, missing cache entry
(read-query `null` or throw), write failure, missing `entityName` for a
field update — the operation returns `false` (or `null` for reads) and the
cache state is unchanged; more generally, every `false` return leaves the
state unchanged, for both `EntityCacheManager` and
`OptimisticCacheManager`. -/
theorem claim_C2_operations_total {α ε : Type} (idf : α → JsId)
    (reg : Registry) (cache : Cache α ε) (op : EntityOperation α)
    (key : String) (config : EntityConfig) (kind : StrategyKind)
    (cop : CacheOperation α) (id : JsId) :
    ((EntityCacheManager.executeOperation idf reg cache op).1 = false →
      (EntityCacheManager.executeOperation idf reg cache op).2 = cache) ∧
    (reg.entities.lookup op.entityKey = none →
      EntityCacheManager.executeOperation idf reg cache op = (false, cache)) ∧
    (reg.entities.lookup op.entityKey = some config →
      readCacheData config cache = none →
      (EntityCacheManager.executeOperation idf reg cache op).1 = false) ∧
    (cache.writeThrows = true →
      (EntityCacheManager.executeOperation idf reg cache op).1 = false) ∧
    (reg.entities.lookup key = none →
      EntityCacheManager.getCachedData reg cache key =
        (none : Option (EntityData α ε))) ∧
    ((OptimisticCacheManager.executeOperation idf config kind cache
        cop).1 = false →
      (OptimisticCacheManager.executeOperation idf config kind cache
        cop).2 = cache) ∧
    (readCacheData config cache = none →
      OptimisticCacheManager.executeOperation idf config kind cache cop =
        (false, cache)) ∧
    ((OptimisticCacheManager.updateItemField (α := α) (ε := ε) config cache
        id).1 = false →
      (OptimisticCacheManager.updateItemField (α := α) (ε := ε) config cache
        id).2 = cache) ∧
    (config.entityName = none →
      OptimisticCacheManager.updateItemField (α := α) (ε := ε) config cache
        id = (false, cache)) := by
  refine ⟨EntityCacheManager.ecm_executeOperation_unchanged_of_false idf reg
    cache op, ?_, ?_, ?_, ?_,
    OptimisticCacheManager.ocm_executeOperation_unchanged_of_false idf config
      kind cache cop, ?_,
    OptimisticCacheManager.updateItemField_unchanged_of_false config cache
      id, ?_⟩
  · intro h1
    simp [EntityCacheManager.executeOperation, h1]
  · intro hc hr
    rcases h2 : reg.strategies.lookup op.entityKey with _ | kind1
    · simp [EntityCacheManager.executeOperation, hc, h2]
    · simp [EntityCacheManager.executeOperation, hc, h2, hr]
  · intro h5
    rcases h1 : reg.entities.lookup op.entityKey with _ | config1
    · simp [EntityCacheManager.executeOperation, h1]
    · rcases h2 : reg.strategies.lookup op.entityKey with _ | kind1
      · simp [EntityCacheManager.executeOperation, h1, h2]
      · rcases h3 : readCacheData config1 cache with _ | ex
        · simp [EntityCacheManager.executeOperation, h1, h2, h3]
        · rcases h4 : applyOperation idf kind1 ex op with _ | upd
          · simp [EntityCacheManager.executeOperation, h1, h2, h3, h4]
          · simp [EntityCacheManager.executeOperation, h1, h2, h3, h4, h5]
  · intro h1
    simp [EntityCacheManager.getCachedData, h1]
  · intro hr
    simp [OptimisticCacheManager.executeOperation, hr]
  · intro h1
    simp [OptimisticCacheManager.updateItemField, truthyName, h1]

/-- Witness for C2 at a concrete input: an empty registry and cache — the
add operation for the unregistered key `todos` returns `false` with the
cache unchanged, and `getCachedData` returns `null`. -/
theorem claim_C2_operations_total_witness :
    EntityCacheManager.executeOperation (fun n : Int => JsId.num n)
      (⟨[], []⟩ : Registry)
      (⟨[], false, false, [], [], false, []⟩ : Cache Int Unit)
      ⟨EntityOperationType.add, "todos", some 1, none, none, none⟩ =
      (false, ⟨[], false, false, [], [], false, []⟩) ∧
    EntityCacheManager.getCachedData (⟨[], []⟩ : Registry)
      (⟨[], false, false, [], [], false, []⟩ : Cache Int Unit) "todos" =
      none ∧
    OptimisticCacheManager.updateItemField
      (⟨"q", DataStructure.paginated, none⟩ : EntityConfig)
      (⟨[], false, false, [], [], false, []⟩ : Cache Int Unit)
      (JsId.num 1) =
      (false, ⟨[], false, false, [], [], false, []⟩) := by
  have h := claim_C2_operations_total (fun n : Int => JsId.num n)
    (⟨[], []⟩ : Registry)
    (⟨[], false, false, [], [], false, []⟩ : Cache Int Unit)
    ⟨EntityOperationType.add, "todos", some 1, none, none, none⟩
    "todos" (⟨"q", DataStructure.paginated, none⟩ : EntityConfig)
    StrategyKind.paginated (CacheOperation.update 1) (JsId.num 1)
  exact ⟨h.2.1 rfl, h.2.2.2.2.1 rfl, h.2.2.2.2.2.2.2.2 rfl⟩

/-- Counterexample for C5 as stated: a successful `Remove` of the identity
`0` (a JavaScript-falsy number) through `EntityCacheManager` with
`entityName = "Todo"` configured returns `true` but evicts nothing, even
though `identify` resolves `(Todo, 0)` to `"Todo:0"`. -/
theorem claim_C5_counterexample :
    (EntityCacheManager.executeOperation (fun n : Int => JsId.num n)
      (⟨[("todos", ⟨"GetTodos", DataStructure.paginated, some "Todo"⟩)],
        [("todos", StrategyKind.paginated)]⟩ : Registry)
      (⟨[("GetTodos", EntityData.paginated ⟨[0], ⟨1, 10, 1, 1⟩⟩)], false,
        false, [(("Todo", JsId.num 0), "Todo:0")], [], false, []⟩ :
        Cache Int Unit)
      ⟨EntityOperationType.remove, "todos", none, some (JsId.num 0), none,
        none⟩).1 = true ∧
    (EntityCacheManager.executeOperation (fun n : Int => JsId.num n)
      (⟨[("todos", ⟨"GetTodos", DataStructure.paginated, some "Todo"⟩)],
        [("todos", StrategyKind.paginated)]⟩ : Registry)
      (⟨[("GetTodos", EntityData.paginated ⟨[0], ⟨1, 10, 1, 1⟩⟩)], false,
        false, [(("Todo", JsId.num 0), "Todo:0")], [], false, []⟩ :
        Cache Int Unit)
      ⟨EntityOperationType.remove, "todos", none, some (JsId.num 0), none,
        none⟩).2.evictedIds = [] ∧
    List.lookup ("Todo", JsId.num 0) [(("Todo", JsId.num 0), "Todo:0")] =
      some "Todo:0" := by
  decide

/-- C5 amended: for every successful `Remove` with `entityName` configured
and non-empty and `identify` resolving to a non-empty cache id, the
normalized record is evicted — in `EntityCacheManager` only under the
additional condition that the removed id is JavaScript-truthy (non-zero,
non-empty); for falsy ids (`0`, `''`) the eviction is silently skipped
even though the remove succeeds.  `OptimisticCacheManager` evicts with no
truthiness condition on the id. -/
theorem claim_C5_eviction_on_remove {α ε : Type} (idf : α → JsId) :
    (∀ (reg : Registry) (cache : Cache α ε) (op : EntityOperation α)
        (config : EntityConfig) (tn : String) (idv : JsId) (cid : String),
      reg.entities.lookup op.entityKey = some config →
      op.type = EntityOperationType.remove →
      op.id = some idv →
      idv.truthy = true →
      config.entityName = some tn →
      ¬ tn = "" →
      cache.identifyMap.lookup (tn, idv) = some cid →
      ¬ cid = "" →
      (EntityCacheManager.executeOperation idf reg cache op).1 = true →
      cid ∈ (EntityCacheManager.executeOperation idf reg cache
        op).2.evictedIds) ∧
    (∀ (config : EntityConfig) (kind : StrategyKind) (cache : Cache α ε)
        (id : JsId) (tn cid : String),
      config.entityName = some tn →
      ¬ tn = "" →
      cache.identifyMap.lookup (tn, id) = some cid →
      (OptimisticCacheManager.executeOperation idf config kind cache
        (CacheOperation.remove id)).1 = true →
      cid ∈ (OptimisticCacheManager.executeOperation idf config kind cache
        (CacheOperation.remove id)).2.evictedIds) := by
  constructor
  · intro reg cache op config tn idv cid hc hty hid htr htn htn' hident
      hcid hsucc
    rcases h2 : reg.strategies.lookup op.entityKey with _ | kind
    · simp [EntityCacheManager.executeOperation, hc, h2] at hsucc
    · rcases h3 : readCacheData config cache with _ | ex
      · simp [EntityCacheManager.executeOperation, hc, h2, h3] at hsucc
      · rcases h4 : applyOperation idf kind ex op with _ | upd
        · simp [EntityCacheManager.executeOperation, hc, h2, h3, h4]
            at hsucc
        · by_cases h5 : cache.writeThrows = true
          · simp [EntityCacheManager.executeOperation, hc, h2, h3, h4, h5]
              at hsucc
          · have hexec : EntityCacheManager.executeOperation idf reg cache
                op = (true, EntityCacheManager.evictOnRemove config op
                  (writeCacheData config cache upd)) := by
              simp [EntityCacheManager.executeOperation, hc, h2, h3, h4, h5]
            rw [hexec]
            have hcond : op.type = EntityOperationType.remove ∧
                truthyName config.entityName = true ∧
                truthyId op.id = true :=
              ⟨hty, by simp [truthyName, htn, htn'],
               by simp [truthyId, hid, htr]⟩
            unfold EntityCacheManager.evictOnRemove
            rw [if_pos hcond]
            simp only [htn, hid, writeCacheData]
            rw [hident]
            simp [hcid]
  · intro config kind cache id tn cid htn htn' hident hsucc
    rcases h1 : readCacheData config cache with _ | ex
    · simp [OptimisticCacheManager.executeOperation, h1] at hsucc
    · rcases h2 : OptimisticCacheManager.applyOperation idf kind ex
          (CacheOperation.remove id) with _ | upd
      · simp [OptimisticCacheManager.executeOperation, h1, h2] at hsucc
      · by_cases h3 : cache.writeThrows = true
        · simp [OptimisticCacheManager.executeOperation, h1, h2, h3]
            at hsucc
        · have hexec : OptimisticCacheManager.executeOperation idf config
              kind cache (CacheOperation.remove id) =
              (true, OptimisticCacheManager.evictOnRemove config
                (CacheOperation.remove id)
                (writeCacheData config cache upd)) := by
            simp [OptimisticCacheManager.executeOperation, h1, h2, h3]
          rw [hexec]
          have hname : truthyName config.entityName = true := by
            simp [truthyName, htn, htn']
          simp only [OptimisticCacheManager.evictOnRemove, hname, htn,
            writeCacheData, if_true]
          rw [hident]
          simp [truthyName, htn']

/-- Witness for the amended C5 at concrete inputs: `EntityCacheManager`
evicts `"Todo:1"` when removing the truthy id `1`; `OptimisticCacheManager`
evicts `"Todo:0"` even for the falsy id `0`. -/
theorem claim_C5_eviction_on_remove_witness :
    "Todo:1" ∈ (EntityCacheManager.executeOperation
      (fun n : Int => JsId.num n)
      (⟨[("todos", ⟨"GetTodos", DataStructure.paginated, some "Todo"⟩)],
        [("todos", StrategyKind.paginated)]⟩ : Registry)
      (⟨[("GetTodos", EntityData.paginated ⟨[1], ⟨1, 10, 1, 1⟩⟩)], false,
        false, [(("Todo", JsId.num 1), "Todo:1")], [], false, []⟩ :
        Cache Int Unit)
      ⟨EntityOperationType.remove, "todos", none, some (JsId.num 1), none,
        none⟩).2.evictedIds ∧
    "Todo:0" ∈ (OptimisticCacheManager.executeOperation
      (fun n : Int => JsId.num n)
      (⟨"GetTodos", DataStructure.paginated, some "Todo"⟩ : EntityConfig)
      StrategyKind.paginated
      (⟨[("GetTodos", EntityData.paginated ⟨[0], ⟨1, 10, 1, 1⟩⟩)], false,
        false, [(("Todo", JsId.num 0), "Todo:0")], [], false, []⟩ :
        Cache Int Unit)
      (CacheOperation.remove (JsId.num 0))).2.evictedIds := by
  constructor
  · exact (claim_C5_eviction_on_remove (fun n : Int => JsId.num n)).1
      ⟨[("todos", ⟨"GetTodos", DataStructure.paginated, some "Todo"⟩)],
        [("todos", StrategyKind.paginated)]⟩
      ⟨[("GetTodos", EntityData.paginated ⟨[1], ⟨1, 10, 1, 1⟩⟩)], false,
        false, [(("Todo", JsId.num 1), "Todo:1")], [], false, []⟩
      ⟨EntityOperationType.remove, "todos", none, some (JsId.num 1), none,
        none⟩
      ⟨"GetTodos", DataStructure.paginated, some "Todo"⟩ "Todo"
      (JsId.num 1) "Todo:1" (by decide) rfl rfl (by decide) rfl (by decide)
      (by decide) (by decide) (by decide)
  · exact (claim_C5_eviction_on_remove (fun n : Int => JsId.num n)).2
      ⟨"GetTodos", DataStructure.paginated, some "Todo"⟩
      StrategyKind.paginated
      ⟨[("GetTodos", EntityData.paginated ⟨[0], ⟨1, 10, 1, 1⟩⟩)], false,
        false, [(("Todo", JsId.num 0), "Todo:0")], [], false, []⟩
      (JsId.num 0) "Todo" "Todo:0" rfl (by decide) (by decide) (by decide)

/-- C10: `registerEntity` with an unrecognized shape throws only after the
config has been inserted into `entities`: afterwards the key has a config
but no bound strategy (when it had none before), so `executeOperation` for
that key fails at the strategy lookup with the cache untouched, while
`getCachedData` still reads and returns the cached value. -/
theorem claim_C10_register_invalid_shape {α ε : Type} (idf : α → JsId)
    (reg : Registry) (key : String) (config : EntityConfig) (s : String)
    (cache : Cache α ε)
    (hshape : config.dataStructure = DataStructure.invalid s)
    (hfresh : reg.strategies.lookup key = none) :
    (EntityCacheManager.registerEntity reg key config).2 = true ∧
    (EntityCacheManager.registerEntity reg key
      config).1.entities.lookup key = some config ∧
    (EntityCacheManager.registerEntity reg key
      config).1.strategies.lookup key = none ∧
    (∀ op : EntityOperation α, op.entityKey = key →
      EntityCacheManager.executeOperation idf
        (EntityCacheManager.registerEntity reg key config).1 cache op =
        (false, cache)) ∧
    EntityCacheManager.getCachedData
      (EntityCacheManager.registerEntity reg key config).1 cache key =
      readCacheData config cache := by
  have hreg : EntityCacheManager.registerEntity reg key config =
      ({ entities := (key, config) :: reg.entities,
         strategies := reg.strategies }, true) := by
    simp [EntityCacheManager.registerEntity,
      EntityCacheManager.strategyFor, hshape]
  refine ⟨by rw [hreg], ?_, ?_, ?_, ?_⟩
  · rw [hreg]
    simp [List.lookup]
  · rw [hreg]
    exact hfresh
  · intro op hop
    subst hop
    rw [hreg]
    simp [EntityCacheManager.executeOperation, List.lookup, hfresh]
  · rw [hreg]
    simp [EntityCacheManager.getCachedData, List.lookup]

/-- Witness for C10 at a concrete input: registering key `todos` with the
invalid shape string `bogus` over a warm cache. -/
theorem claim_C10_register_invalid_shape_witness :
    (EntityCacheManager.registerEntity ⟨[], []⟩ "todos"
      ⟨"GetTodos", DataStructure.invalid "bogus", none⟩).2 = true ∧
    (EntityCacheManager.registerEntity ⟨[], []⟩ "todos"
      ⟨"GetTodos", DataStructure.invalid "bogus",
        none⟩).1.strategies.lookup "todos" = none ∧
    EntityCacheManager.executeOperation (fun n : Int => JsId.num n)
      (EntityCacheManager.registerEntity ⟨[], []⟩ "todos"
        ⟨"GetTodos", DataStructure.invalid "bogus", none⟩).1
      (⟨[("GetTodos", EntityData.paginated ⟨[1], ⟨1, 10, 1, 1⟩⟩)], false,
        false, [], [], false, []⟩ : Cache Int Unit)
      ⟨EntityOperationType.remove, "todos", none, some (JsId.num 1), none,
        none⟩ =
      (false, ⟨[("GetTodos", EntityData.paginated ⟨[1], ⟨1, 10, 1, 1⟩⟩)],
        false, false, [], [], false, []⟩) ∧
    EntityCacheManager.getCachedData
      (EntityCacheManager.registerEntity ⟨[], []⟩ "todos"
        ⟨"GetTodos", DataStructure.invalid "bogus", none⟩).1
      (⟨[("GetTodos", EntityData.paginated ⟨[1], ⟨1, 10, 1, 1⟩⟩)], false,
        false, [], [], false, []⟩ : Cache Int Unit) "todos" =
      some (EntityData.paginated ⟨[1], ⟨1, 10, 1, 1⟩⟩) := by
  have h := claim_C10_register_invalid_shape (fun n : Int => JsId.num n)
    (⟨[], []⟩ : Registry) "todos"
    (⟨"GetTodos", DataStructure.invalid "bogus", none⟩ : EntityConfig)
    "bogus"
    (⟨[("GetTodos", EntityData.paginated ⟨[1], ⟨1, 10, 1, 1⟩⟩)], false,
      false, [], [], false, []⟩ : Cache Int Unit) rfl rfl
  refine ⟨h.1, h.2.2.1, h.2.2.2.1 _ rfl, ?_⟩
  rw [h.2.2.2.2]
  decide
